import Mathlib

/-!
Verification development for the Solana token-scan repository.

We shallowly embed the pure core of the pipeline: the relevance verifier
(`_verify_and_filter_results`), the ranking relevance function
(`calculate_relevance`) together with the URL deduplication of
`search_x_mentions`, the engagement aggregator
(`analyze_verified_social_engagement`), the recommendation scorer
(`generate_accurate_investment_recommendation`), the multi-source resolver
loop (`get_token_info_from_multiple_sources` with its fallback
`_create_fallback_token_info`), and the address validator
(`validate_solana_contract`).  Machine floats of the reference are modelled
with exact rationals; Python strings with Lean strings (all relevant data is
ASCII apart from emoji literals, which are copied verbatim).
-/

namespace TokenScan

/-- ASCII lower-casing of one character, as Python's `str.lower` acts on the
ASCII data of this code base. -/
def charLower (c : Char) : Char :=
  if 'A' ≤ c ∧ c ≤ 'Z' then Char.ofNat (c.toNat + 32) else c

/-- Python's `s.lower()` (ASCII). -/
def pyLower (s : String) : String :=
  String.mk (s.data.map charLower)

/-- Python's `s.replace(str(c), "")`: drop every occurrence of `c`. -/
def pyRemove (c : Char) (s : String) : String :=
  String.mk (s.data.filter (fun d => !(d == c)))

/-- Python's `s[:n]` on character counts. -/
def pyTake (n : Nat) (s : String) : String :=
  String.mk (s.data.take n)

/-- Python's `needle in haystack` for strings, on lists of characters:
`startsWithChars hay needle` holds when `needle` is an initial segment of
`hay`. -/
def startsWithChars : List Char → List Char → Bool
  | _, [] => true
  | [], _ :: _ => false
  | c :: cs, d :: ds => c == d && startsWithChars cs ds

/-- `containsSub hay needle` holds when `needle` occurs contiguously inside
`hay` (Python's substring test; the empty needle always occurs). -/
def containsSub : List Char → List Char → Bool
  | [], needle => needle.isEmpty
  | h :: t, needle => startsWithChars (h :: t) needle || containsSub t needle

/-- Python's `needle in haystack` on strings. -/
def strIn (needle hay : String) : Bool :=
  containsSub hay.toList needle.toList

/-! Section: Data model for raw social-media mentions -/

/-- Engagement counters of a mention (`{"likes": .., "retweets": .., "replies": ..}`). -/
structure Engagement where
  likes : Nat
  retweets : Nat
  replies : Nat
deriving Repr, DecidableEq

/-- A raw candidate mention as produced by the search layer.  `engagement` is
`none` when the dictionary carries no (truthy) engagement entry. -/
structure RawMention where
  title : String
  content : String
  url : String
  author : String
  engagement : Option Engagement
deriving Repr, DecidableEq

/-- A retained mention: the raw mention with the accumulated
`verification_score` attached (the mutation `result["verification_score"] = ..`). -/
structure VerifiedMention where
  mention : RawMention
  verification_score : Nat
deriving Repr, DecidableEq

/-- The scored text: `f"{title} {content}".lower()`. -/
def scoredText (r : RawMention) : String :=
  pyLower (r.title ++ " " ++ r.content)

/-- Signal 1 of `_verify_and_filter_results`: some 8-character slice
`contract_address[i:i+8].lower()`, for `i in range(0, len(contract_address)-7, 4)`,
occurs in the scored text. -/
def idSignal (addr : String) (content : String) : Bool :=
  ((List.range (addr.length - 7)).filter (fun i => i % 4 == 0)).any
    (fun i => strIn (String.mk (((addr.data.drop i).take 8).map charLower)) content)

/-- Signal 2: the symbol is known (truthy and not `"UNKNOWN"`) and occurs in
the scored text bare or prefixed with `$`. -/
def symSignal (sym : String) (content : String) : Bool :=
  !sym.data.isEmpty && !(sym == "UNKNOWN") &&
    (strIn (pyLower sym) content || strIn ("$" ++ pyLower sym) content)

/-- Signal 3: the pump.fun context keyword pair
(`"pump" in content and ("fun" in content or "solana" in content)`). -/
def ctxSignal (content : String) : Bool :=
  strIn "pump" content && (strIn "fun" content || strIn "solana" content)

/-- Signal 4: the mention's URL lies on a target social-media domain. -/
def urlSignal (url : String) : Bool :=
  strIn "x.com" url || strIn "twitter.com" url

/-- Signal 5: the mention carries truthy engagement or author metadata. -/
def metaSignal (r : RawMention) : Bool :=
  r.engagement.isSome || !r.author.data.isEmpty

/-- The sequential score accumulation of `_verify_and_filter_results`,
starting from `verification_score = 0` and applying the five `+=` steps in
source order. -/
def verificationScore (addr sym : String) (r : RawMention) : Nat :=
  let content := scoredText r
  let s : Nat := 0
  let s := if idSignal addr content then s + 50 else s
  let s := if symSignal sym content then s + 30 else s
  let s := if ctxSignal content then s + 20 else s
  let s := if urlSignal r.url then s + 20 else s
  let s := if metaSignal r then s + 10 else s
  s

/-- `_verify_and_filter_results`: keep exactly the candidates whose
accumulated score reaches the fixed threshold 70, attaching the score. -/
def verifyAndFilterResults (results : List RawMention) (addr sym : String) :
    List VerifiedMention :=
  results.filterMap (fun r =>
    let s := verificationScore addr sym r
    if 70 ≤ s then some ⟨r, s⟩ else none)

/-- The verification score as the specification words it: one independent sum
of the five weighted signals (identifier substring +50, known symbol +30,
context keyword pair +20, target domain +20, engagement/author metadata +10). -/
def specVerificationScore (addr sym : String) (r : RawMention) : Nat :=
  (if idSignal addr (scoredText r) then 50 else 0) +
  (if symSignal sym (scoredText r) then 30 else 0) +
  (if ctxSignal (scoredText r) then 20 else 0) +
  (if urlSignal r.url then 20 else 0) +
  (if metaSignal r then 10 else 0)

theorem verificationScore_eq_spec (addr sym : String) (r : RawMention) :
    verificationScore addr sym r = specVerificationScore addr sym r := by
  unfold verificationScore specVerificationScore
  cases h1 : idSignal addr (scoredText r) <;>
    cases h2 : symSignal sym (scoredText r) <;>
      cases h3 : ctxSignal (scoredText r) <;>
        cases h4 : urlSignal r.url <;>
          cases h5 : metaSignal r <;> simp [h1, h2, h3, h4, h5]

/-! Section: Search pipeline of `search_x_mentions` (standalone variant):
URL deduplication, ranking relevance, stable descending sort, positive filter. -/

/-- A search result as consumed by `search_x_mentions` (`title`, `text`,
`url` attributes; missing attributes default to the empty string). -/
structure SearchResult where
  title : String
  text : String
  url : String
deriving Repr, DecidableEq

/-- The URL-deduplication loop: walk the list keeping the running `seen_urls`
set, retaining a result only when its URL is truthy and unseen. -/
def dedupAux (seen : List String) : List SearchResult → List SearchResult
  | [] => []
  | r :: rest =>
    if !r.url.data.isEmpty && !(seen.contains r.url) then
      r :: dedupAux (r.url :: seen) rest
    else
      dedupAux seen rest

/-- `search_x_mentions`' duplicate removal, starting from an empty seen set. -/
def dedupByUrl (rs : List SearchResult) : List SearchResult :=
  dedupAux [] rs

/-- The generic crypto-context keyword list of `calculate_relevance`. -/
def cryptoKeywords : List String :=
  ["pump", "moon", "solana", "dex", "trade", "buy", "sell", "token", "coin",
   "crypto", "gem"]

/-- `calculate_relevance`: sequential score accumulation over the case-folded
`title + " " + text`, mirroring the source order: exact identifier +100, the
`for length in [12, 8, 6]` partial-prefix loop adding `50 - (12-length)*5`,
symbol +20, name +15, and +2 per crypto keyword present. -/
def calcRelevance (addr sym nm : String) (r : SearchResult) : Nat :=
  let content := pyLower (r.title ++ " " ++ r.text)
  let s : Nat := 0
  let s := if strIn (pyLower addr) content then s + 100 else s
  let s := ([12, 8, 6] : List Nat).foldl
    (fun acc l => if strIn (pyLower (pyTake l addr)) content then acc + (50 - (12 - l) * 5) else acc) s
  let s := if !sym.data.isEmpty && strIn (pyLower sym) content then s + 20 else s
  let s := if !nm.data.isEmpty && strIn (pyLower nm) content then s + 15 else s
  cryptoKeywords.foldl (fun acc k => if strIn k content then acc + 2 else acc) s

/-- The ranking relevance score exactly as the claim words it, in particular
with ONE point per generic crypto keyword present (the reference adds two). -/
def claimRankScore (addr sym nm : String) (r : SearchResult) : Nat :=
  let content := pyLower (r.title ++ " " ++ r.text)
  (if strIn (pyLower addr) content then 100 else 0) +
  (([12, 8, 6] : List Nat).filter
      (fun l => strIn (pyLower (pyTake l addr)) content)).foldl
    (fun acc l => acc + (50 - (12 - l) * 5)) 0 +
  (if !sym.data.isEmpty && strIn (pyLower sym) content then 20 else 0) +
  (if !nm.data.isEmpty && strIn (pyLower nm) content then 15 else 0) +
  (cryptoKeywords.filter (fun k => strIn k content)).length

/-- `claimRankScore` with the keyword weight corrected to the reference's two
points per keyword; otherwise identical to the claim's wording. -/
def claimRankScore2 (addr sym nm : String) (r : SearchResult) : Nat :=
  let content := pyLower (r.title ++ " " ++ r.text)
  (if strIn (pyLower addr) content then 100 else 0) +
  (([12, 8, 6] : List Nat).filter
      (fun l => strIn (pyLower (pyTake l addr)) content)).foldl
    (fun acc l => acc + (50 - (12 - l) * 5)) 0 +
  (if !sym.data.isEmpty && strIn (pyLower sym) content then 20 else 0) +
  (if !nm.data.isEmpty && strIn (pyLower nm) content then 15 else 0) +
  2 * (cryptoKeywords.filter (fun k => strIn k content)).length

/-- Stable insertion into a descending-sorted list: walk past strictly larger
scores, so that among equal scores the earlier element stays first (Python's
stable `list.sort(key=.., reverse=True)`). -/
def insertByScoreDesc (score : SearchResult → Nat) (r : SearchResult) :
    List SearchResult → List SearchResult
  | [] => [r]
  | x :: xs =>
    if score r < score x then x :: insertByScoreDesc score r xs
    else r :: x :: xs

/-- Stable descending sort by a score function. -/
def sortByScoreDesc (score : SearchResult → Nat) :
    List SearchResult → List SearchResult
  | [] => []
  | x :: xs => insertByScoreDesc score x (sortByScoreDesc score xs)

/-- The post-processing of `search_x_mentions` on the accumulated raw results:
deduplicate by URL, sort by `calculate_relevance` descending, keep only
strictly-positive-scored results, return the first 10. -/
def searchPipeline (addr sym nm : String) (rs : List SearchResult) :
    List SearchResult :=
  let uniq := dedupByUrl rs
  let sorted := sortByScoreDesc (calcRelevance addr sym nm) uniq
  (sorted.filter (fun r => 0 < calcRelevance addr sym nm r)).take 10

/-! Section: Engagement aggregator (`analyze_verified_social_engagement`) -/

/-- The engagement summary dictionary.  `total_engagement` is `none` in the
empty-input branch, which omits the key. -/
structure EngagementSummary where
  engagement_score : ℚ
  notable_accounts : List String
  total_mentions : Nat
  engagement_level : String
  risk_assessment : String
  authentic_mentions : Nat
  total_engagement : Option (Nat × Nat × Nat)
  analysis_quality : String
deriving Repr, DecidableEq

/-- `result.get("engagement", {}).get("likes", 0)`. -/
def likesOf (r : RawMention) : Nat :=
  match r.engagement with
  | some e => e.likes
  | none => 0

/-- `result.get("engagement", {}).get("retweets", 0)`. -/
def retweetsOf (r : RawMention) : Nat :=
  match r.engagement with
  | some e => e.retweets
  | none => 0

/-- `result.get("engagement", {}).get("replies", 0)`. -/
def repliesOf (r : RawMention) : Nat :=
  match r.engagement with
  | some e => e.replies
  | none => 0

/-- The author-handle fragments that make an account a notability candidate. -/
def notablePatterns : List String :=
  ["crypto", "solana", "defi", "trader"]

/-- The notable-account accumulation loop: append `author.lower()` whenever a
pattern occurs in it and the post has strictly more than 100 likes. -/
def notableAccountsOf (vs : List VerifiedMention) : List String :=
  vs.filterMap (fun v =>
    let author := pyLower v.mention.author
    if notablePatterns.any (fun p => strIn p author) && 100 < likesOf v.mention
    then some author else none)

/-- Sum of likes across the verified mentions. -/
def totalLikes (vs : List VerifiedMention) : Nat :=
  vs.foldl (fun a v => a + likesOf v.mention) 0

/-- Sum of retweets across the verified mentions. -/
def totalRetweets (vs : List VerifiedMention) : Nat :=
  vs.foldl (fun a v => a + retweetsOf v.mention) 0

/-- Sum of replies across the verified mentions. -/
def totalReplies (vs : List VerifiedMention) : Nat :=
  vs.foldl (fun a v => a + repliesOf v.mention) 0

/-- Python's `round(x, 1)` on the exact rational model.  Every value the
aggregator rounds is an exact multiple of 1/10, so any tie-breaking
convention agrees with the reference floats here. -/
def roundTo1 (q : ℚ) : ℚ :=
  (round (q * 10) : ℤ) / 10

/-- The unrounded final engagement score of the aggregator:
`min(min(n*15, 60) + min((likes + 2*retweets)/10, 30) + 10*distinct_notables, 100)`. -/
def rawEngagementScore (vs : List VerifiedMention) : ℚ :=
  let base : ℚ := min (vs.length * 15 : ℕ) 60
  let bonus : ℚ := min ((totalLikes vs + totalRetweets vs * 2 : ℚ) / 10) 30
  let notable : ℚ := ((notableAccountsOf vs).eraseDups.length : ℕ) * 10
  min (base + bonus + notable) 100

/-- `analyze_verified_social_engagement`.  `list(set(..))` is modelled by
`eraseDups` (first-occurrence order); the final score is rounded to one
decimal as in the reference. -/
def analyzeVerifiedSocialEngagement (vs : List VerifiedMention) :
    EngagementSummary :=
  if vs.isEmpty then
    { engagement_score := 0
      notable_accounts := []
      total_mentions := 0
      engagement_level := "None"
      risk_assessment := "Very High - No Social Media Presence"
      authentic_mentions := 0
      total_engagement := none
      analysis_quality := "No verified data available" }
  else
    let finalScore := rawEngagementScore vs
    let levelRisk : String × String :=
      if 80 ≤ finalScore then ("Very High", "Low - Strong Community")
      else if 60 ≤ finalScore then ("High", "Medium - Good Community")
      else if 30 ≤ finalScore then ("Moderate", "High - Limited Community")
      else if 10 ≤ finalScore then ("Low", "Very High - Minimal Interest")
      else ("Very Low", "Extremely High - No Community")
    { engagement_score := roundTo1 finalScore
      notable_accounts := (notableAccountsOf vs).eraseDups
      total_mentions := vs.length
      engagement_level := levelRisk.1
      risk_assessment := levelRisk.2
      authentic_mentions := vs.length
      total_engagement := some (totalLikes vs, totalRetweets vs, totalReplies vs)
      analysis_quality :=
        "High - " ++ toString vs.length ++ " verified mentions analyzed" }

/-! Section: Multi-source resolver (`get_token_info_from_multiple_sources`) -/

/-- The common token-metadata shape produced by every provider parser and by
the fallback.  Parsers that omit the `fallback` key correspond to
`fallback := false`. -/
structure TokenInfo where
  name : String
  symbol : String
  decimals : Nat
  supply : String
  success : Bool
  fallback : Bool
  source : String
deriving Repr, DecidableEq

/-- `_create_fallback_token_info`: the placeholder returned when every
provider fails, whose display name is derived from the fixed 8-character
identifier slice `contract_address[:8]`. -/
def createFallbackTokenInfo (addr : String) : TokenInfo :=
  { name := "Token " ++ pyTake 8 addr ++ "..."
    symbol := "UNKNOWN"
    decimals := 9
    supply := "Unknown"
    success := false
    fallback := true
    source := "Fallback" }

/-- Outcome of one provider fetch: a raised transport exception, or an HTTP
response with a status code and a payload of type `α`. -/
inductive FetchOutcome (α : Type) where
  | transportError
  | response (status : Nat) (data : α)
deriving Repr, DecidableEq

/-- One entry of the resolver's `sources` list: a printable label and the
provider-specific parser into the common shape. -/
structure Provider (α : Type) where
  label : String
  parse : α → TokenInfo

/-- The resolver loop over providers paired with their fetch outcomes.
Returns the resulting `TokenInfo` together with the number of providers that
were actually invoked (fetched).  Transport errors, non-200 statuses and
unsuccessful parses all fall through to the next provider; a successful parse
short-circuits; exhaustion yields the fallback. -/
def resolveTokenInfo {α : Type} (addr : String) :
    List (Provider α × FetchOutcome α) → TokenInfo × Nat
  | [] => (createFallbackTokenInfo addr, 0)
  | (p, o) :: rest =>
    match o with
    | .transportError =>
      let rn := resolveTokenInfo addr rest
      (rn.1, rn.2 + 1)
    | .response status d =>
      if status == 200 then
        let r := p.parse d
        if r.success then (r, 1)
        else
          let rn := resolveTokenInfo addr rest
          (rn.1, rn.2 + 1)
      else
        let rn := resolveTokenInfo addr rest
        (rn.1, rn.2 + 1)

/-- A provider/outcome pair fails when the fetch raised, the status was not
200, or the parser reported `success=False`. -/
def providerFails {α : Type} (pe : Provider α × FetchOutcome α) : Bool :=
  match pe.2 with
  | .transportError => true
  | .response status d => !(status == 200) || !(pe.1.parse d).success

/-! Section: Market snapshot and recommendation scorer -/

/-- The market-data dictionary shape (`get_comprehensive_price_data` result),
including the all-Unknown fallback. -/
structure MarketSnapshot where
  price_usd : String
  market_cap : String
  liquidity : String
  volume_24h : String
  price_change_24h : String
  dex : String
  success : Bool
  fallback : Bool
deriving Repr, DecidableEq

/-- `_create_fallback_price_data`: the all-Unknown market snapshot. -/
def createFallbackPriceData : MarketSnapshot :=
  { price_usd := "Unknown"
    market_cap := "Unknown"
    liquidity := "Unknown"
    volume_24h := "Unknown"
    price_change_24h := "Unknown"
    dex := "Unknown"
    success := false
    fallback := true }

/-- `s.replace(".", "").replace(",", "").isdigit()`: Python `str.isdigit` is
true iff the string is non-empty and all characters are digits. -/
def digitsCheck (s : String) : Bool :=
  let t := pyRemove ',' (pyRemove '.' s)
  !t.data.isEmpty && t.data.all Char.isDigit

/-- Numeric value of a digit list read in base 10. -/
def digitsToNat (cs : List Char) : Nat :=
  cs.foldl (fun a c => a * 10 + (c.toNat - 48)) 0

/-- Python's `float(s)` on the strings reachable after `digitsCheck`: commas
stripped, then digits with at most one decimal point; two or more points
raise `ValueError`, modelled as `none`. -/
def parsePyFloat (s : String) : Option ℚ :=
  let t := pyRemove ',' s
  let cs := t.data
  if cs.all (fun c => c.isDigit || c == '.') && cs.any Char.isDigit
      && cs.count '.' ≤ 1 then
    let intPart := cs.takeWhile (fun c => !(c == '.'))
    let fracPart := (cs.dropWhile (fun c => !(c == '.'))).drop 1
    some ((digitsToNat intPart : ℚ) +
      (digitsToNat fracPart : ℚ) / ((10 : ℚ) ^ fracPart.length))
  else
    none

/-- Insert a comma after every third character of a reversed digit list. -/
def groupRev : List Char → List Char
  | a :: b :: c :: d :: rest => a :: b :: c :: ',' :: groupRev (d :: rest)
  | cs => cs

/-- Decimal digits of `n` grouped with `,` every three digits from the
right: Python's `{:,.0f}` grouping on a natural number. -/
def groupThousands (n : Nat) : String :=
  String.mk (groupRev (toString n).data.reverse).reverse

/-- `f"${x:,.0f}"` without the sigil: round to zero decimals, group by
thousands (nonnegative inputs only, which is all the scorer formats). -/
def fmtDollar (q : ℚ) : String :=
  groupThousands (round q).toNat

/-- The final recommendation dictionary of
`generate_accurate_investment_recommendation`. -/
structure Recommendation where
  recommendation : String
  score : Nat
  risk_level : String
  reasons : List String
  analysis_quality : String
  confidence : String
deriving Repr, DecidableEq

/-- One arm of the market-data `try` block (shared shape of the liquidity and
volume analyses).  `none` models a raised `ValueError` from `float(..)`;
otherwise the points added and the reason appended, using the supplied
labels. -/
def marketValueStep (strong moderate weak tail unknownReason : String)
    (valueStr : String) : Option (Nat × String) :=
  if digitsCheck valueStr then
    match parsePyFloat valueStr with
    | none => none
    | some v =>
      if 100000 ≤ v then some (20, strong ++ fmtDollar v ++ tail)
      else if 25000 ≤ v then some (10, moderate ++ fmtDollar v ++ tail)
      else some (0, weak ++ fmtDollar v ++ tail)
  else
    some (0, unknownReason)

/-- The liquidity analysis of the scorer's market section. -/
def liquidityStep (liquidityStr : String) : Option (Nat × String) :=
  marketValueStep "✅ Strong liquidity ($" "⚠️ Moderate liquidity ($"
    "❌ Low liquidity ($" ")" "❌ Unknown liquidity data" liquidityStr

/-- The volume analysis of the scorer's market section. -/
def volumeStep (volumeStr : String) : Option (Nat × String) :=
  marketValueStep "✅ High trading volume ($" "⚠️ Moderate trading volume ($"
    "❌ Low trading volume ($" ")" "❌ Unknown volume data" volumeStr

/-- The market-data `try` block: liquidity first, then volume; an exception
in either aborts the rest of the block and appends the catch-all reason. -/
def marketAnalysis (price : MarketSnapshot) : Nat × List String :=
  match liquidityStep price.liquidity with
  | none => (0, ["❌ Unable to analyze market data"])
  | some (p1, r1) =>
    match volumeStep price.volume_24h with
    | none => (p1, [r1, "❌ Unable to analyze market data"])
    | some (p2, r2) => (p1 + p2, [r1, r2])

/-- `generate_accurate_investment_recommendation`: additive score over the
social, notable-account and market components, mapped to the discrete
recommendation/risk/confidence labels.  `token_data` is accepted but never
read, as in the reference. -/
def generateRecommendation (_tokenData : TokenInfo) (price : MarketSnapshot)
    (social : EngagementSummary) : Recommendation :=
  let socialScore := social.engagement_score
  let authentic := social.authentic_mentions
  let socialPart : Nat × String :=
    if authentic == 0 then (0, "❌ No verified social media mentions found")
    else if 70 ≤ socialScore then
      (40, "✅ Strong social presence (" ++ toString authentic ++ " verified mentions)")
    else if 40 ≤ socialScore then
      (25, "⚠️ Moderate social presence (" ++ toString authentic ++ " verified mentions)")
    else
      (10, "❌ Weak social presence (" ++ toString authentic ++ " verified mentions)")
  let nb := social.notable_accounts.length
  let notablePart : Nat × String :=
    if 3 ≤ nb then (20, "✅ " ++ toString nb ++ " notable accounts discussing")
    else if 1 ≤ nb then (10, "⚠️ " ++ toString nb ++ " notable account(s) discussing")
    else (0, "❌ No notable accounts discussing")
  let market := marketAnalysis price
  let score := socialPart.1 + notablePart.1 + market.1
  let recRisk : String × String :=
    if 85 ≤ score then ("🟢 STRONG BUY - High Confidence", "Low")
    else if 65 ≤ score then ("🟡 MODERATE BUY - Medium Confidence", "Medium")
    else if 45 ≤ score then ("🟠 CAUTION - Low Confidence", "High")
    else if 25 ≤ score then ("🔴 AVOID - Very Low Confidence", "Very High")
    else ("⛔ STRONG AVOID - No Confidence", "Extremely High")
  { recommendation := recRisk.1
    score := score
    risk_level := recRisk.2
    reasons := [socialPart.2, notablePart.2] ++ market.2
    analysis_quality := "High - Based on verified data"
    confidence :=
      if 65 ≤ score then "High" else if 45 ≤ score then "Medium" else "Low" }

/-! Section: Address validator (`validate_solana_contract`) -/

/-- The 58-symbol base58 alphabet of the validator. -/
def base58Chars : List Char :=
  "123456789ABCDEFGHJKLMNPQRSTUVWXYZabcdefghijkmnopqrstuvwxyz".toList

/-- `validate_solana_contract`: falsy input rejected, length outside [32,44]
rejected, every character must lie in the base58 alphabet. -/
def validate_solana_contract (s : String) : Bool :=
  if s.data.isEmpty then false
  else if s.length < 32 || 44 < s.length then false
  else s.data.all (fun c => base58Chars.contains c)

/-! Section: Test fixtures (concrete inputs used by witnesses and counterexamples) -/

/-- The contract address exercised by the repository's own test drivers. -/
def tAddr : String := "GBUxQFRXQjSPjkxymAUKPfbUbSpRY8Ui7az1HCxtpump"

/-- A mention triggering all five verification signals. -/
def cAll : RawMention :=
  { title := "🚀 New token launch on pump.fun! MOON"
    content := "Just launched $MOON on pump.fun! Contract: GBUxQFRXQjSP... Let us pump this to the moon! #Solana"
    url := "https://x.com/crypto_trader/status/1"
    author := "@crypto_trader_123"
    engagement := some ⟨45, 12, 8⟩ }

/-- A mention passing verification on symbol + context + domain alone, with no
identifier substring and no engagement/author metadata. -/
def cSeventy : RawMention :=
  { title := "Trading on solana"
    content := "get in on the pump $ABC"
    url := "https://x.com/u/status/5"
    author := ""
    engagement := none }

/-- A search result whose only ranking signal is the single crypto keyword
`pump`. -/
def rKeywordOnly : SearchResult :=
  { title := "", text := "pump", url := "https://x.com/p/1" }

/-! Section: Helper lemmas -/

theorem specVerificationScore_le_130 (addr sym : String) (r : RawMention) :
    specVerificationScore addr sym r ≤ 130 := by
  unfold specVerificationScore
  split <;> split <;> split <;> split <;> split <;> norm_num

theorem verifyAndFilterResults_nil (addr sym : String) :
    verifyAndFilterResults [] addr sym = [] := rfl

theorem verifyAndFilterResults_cons (r : RawMention) (rs : List RawMention)
    (addr sym : String) :
    verifyAndFilterResults (r :: rs) addr sym =
      (if 70 ≤ verificationScore addr sym r
        then [⟨r, verificationScore addr sym r⟩] else []) ++
        verifyAndFilterResults rs addr sym := by
  unfold verifyAndFilterResults
  rw [List.filterMap_cons]
  by_cases h : 70 ≤ verificationScore addr sym r <;> simp [h]

theorem mem_verify_score (results : List RawMention) (addr sym : String)
    (v : VerifiedMention) (hv : v ∈ verifyAndFilterResults results addr sym) :
    v.mention ∈ results ∧
      v.verification_score = verificationScore addr sym v.mention ∧
      70 ≤ v.verification_score := by
  unfold verifyAndFilterResults at hv
  rw [List.mem_filterMap] at hv
  obtain ⟨r, hr, hf⟩ := hv
  by_cases h : 70 ≤ verificationScore addr sym r
  · simp only [h, if_pos] at hf
    cases hf
    exact ⟨hr, rfl, h⟩
  · simp [h] at hf

/-! Section: Claims -/

/-- C9.  The address validator accepts exactly the strings of length in
[32, 44] whose characters all come from the 58-symbol base58 alphabet; in
particular it returns false on the empty string, on any string shorter than
32 or longer than 44 characters, and whenever some character falls outside
the alphabet. -/
theorem validate_solana_contract_iff (s : String) :
    validate_solana_contract s = true ↔
      32 ≤ s.length ∧ s.length ≤ 44 ∧ ∀ c ∈ s.data, c ∈ base58Chars := by
  have hlen : s.length = s.data.length := rfl
  unfold validate_solana_contract
  constructor
  · intro h
    by_cases he : s.data.isEmpty = true
    · rw [if_pos he] at h
      exact absurd h (by simp)
    · rw [if_neg he] at h
      by_cases hb : (s.length < 32 || 44 < s.length) = true
      · rw [if_pos hb] at h
        exact absurd h (by simp)
      · rw [if_neg hb] at h
        have hb2 : ¬s.length < 32 ∧ ¬44 < s.length := by
          simpa [not_or] using hb
        refine ⟨by omega, by omega, fun c hc => ?_⟩
        have := List.all_eq_true.mp h c hc
        exact List.elem_iff.mp this
  · rintro ⟨h1, h2, h3⟩
    have he : ¬s.data.isEmpty = true := by
      rw [List.isEmpty_iff]
      intro h0
      rw [hlen, h0] at h1
      simp at h1
    rw [if_neg he, if_neg (by simp; omega), List.all_eq_true]
    intro c hc
    exact List.elem_iff.mpr (h3 c hc)

/-- C1.  The relevance verifier retains exactly the candidates whose
accumulated score — the sum of the five independent signals (stride-4
sampled 8-character identifier substring +50, known symbol bare or
`$`-prefixed +30, context keyword pair +20, target-domain URL +20, non-empty
engagement/author metadata +10) over the case-folded concatenation of title
and body — is at least 70, each retained candidate carrying that score as
`verification_score`. -/
theorem verify_retains_iff_threshold (results : List RawMention)
    (addr sym : String) :
    verifyAndFilterResults results addr sym =
      (results.filter
          (fun r => 70 ≤ specVerificationScore addr sym r)).map
        (fun r => ⟨r, specVerificationScore addr sym r⟩) := by
  induction results with
  | nil => rfl
  | cons r rs ih =>
    rw [verifyAndFilterResults_cons, List.filter_cons, verificationScore_eq_spec]
    by_cases h : 70 ≤ specVerificationScore addr sym r
    · simp [h, ih]
    · simp [h, ih]

/-- C10.  A candidate whose scored text contains no stride-4 sampled
8-character identifier substring can still pass the verification gate: with a
known, present symbol (+30), the context keyword pair (+20) and a
target-domain URL (+20) the accumulated score is exactly 70, so an
identifier match is not necessary for retention. -/
theorem verified_without_id_match :
    idSignal tAddr (scoredText cSeventy) = false ∧
      verifyAndFilterResults [cSeventy] tAddr "ABC" =
        [⟨cSeventy, 70⟩] := by
  constructor
  · decide
  · decide

/-- C2 counterexample.  A retained mention can carry a verification score of
130, exceeding the claimed upper bound 100: a candidate matching all five
signals is retained with `verification_score = 130`. -/
theorem verification_score_exceeds_100 :
    (⟨cAll, 130⟩ : VerifiedMention) ∈ verifyAndFilterResults [cAll] tAddr "MOON" ∧
      ¬(130 ≤ 100) := by
  constructor
  · decide
  · decide

/-- C2 (amended).  Every mention retained by the relevance verifier carries a
`verification_score` that is an integer in the range 0 to 130 inclusive (the
maximum is the sum 50+30+20+20+10 of all five signal weights, which exceeds
the claimed bound of 100). -/
theorem verification_score_le_130 (results : List RawMention)
    (addr sym : String) (v : VerifiedMention)
    (hv : v ∈ verifyAndFilterResults results addr sym) :
    0 ≤ v.verification_score ∧ v.verification_score ≤ 130 := by
  obtain ⟨-, hs, -⟩ := mem_verify_score results addr sym v hv
  refine ⟨Nat.zero_le _, ?_⟩
  rw [hs, verificationScore_eq_spec]
  exact specVerificationScore_le_130 addr sym v.mention

/-- Witness for C2 (amended): the all-signals mention is retained and its
score lies in [0, 130]. -/
theorem verification_score_le_130_witness :
    0 ≤ (⟨cAll, 130⟩ : VerifiedMention).verification_score ∧
      (⟨cAll, 130⟩ : VerifiedMention).verification_score ≤ 130 :=
  verification_score_le_130 [cAll] tAddr "MOON" ⟨cAll, 130⟩ (by decide)

/-- Payload shape of the Jupiter price endpoint as read by
`_parse_jupiter_token_info`: one optional entry per address under the `data`
key.  A missing or empty `data` dictionary is the empty list. -/
structure JupiterTokenData where
  name : Option String
  symbol : Option String
  decimals : Option Nat
deriving Repr, DecidableEq

/-- The Jupiter response: the `data` dictionary, keyed by address. -/
structure JupiterResponse where
  data : List (String × JupiterTokenData)
deriving Repr, DecidableEq

/-- `_parse_jupiter_token_info`: fail when the `data` dictionary is missing,
empty, or lacks the address (the reference returns the bare
`{"success": False}` dict, of which only `success` is ever read downstream);
otherwise extract name/symbol/decimals with their defaults and tag the
result `source = "Jupiter"`. -/
def parseJupiterTokenInfo (data : JupiterResponse) (addr : String) :
    TokenInfo :=
  match data.data.lookup addr with
  | none =>
    { name := "", symbol := "", decimals := 0, supply := ""
      success := false, fallback := false, source := "" }
  | some td =>
    { name := td.name.getD ("Token " ++ pyTake 8 addr ++ "...")
      symbol := td.symbol.getD "UNKNOWN"
      decimals := td.decimals.getD 9
      supply := "Unknown"
      success := true
      fallback := false
      source := "Jupiter" }

/-- The Jupiter metadata provider exactly as registered in the resolver's
`sources` list: printable label `"Jupiter API"`, parser
`_parse_jupiter_token_info` (closed over the resolved address, which the
loop passes unchanged to every parser). -/
def jupiterProvider (addr : String) : Provider JupiterResponse :=
  { label := "Jupiter API", parse := fun d => parseJupiterTokenInfo d addr }

/-- A Jupiter response that parses successfully for `tAddr`. -/
def jupiterSample : JupiterResponse :=
  { data := [(tAddr,
      { name := some "Sample Token", symbol := some "SMP",
        decimals := some 9 })] }

/-- C7 counterexample.  With the repository's own Jupiter provider — list
label `"Jupiter API"`, parser tag `"Jupiter"` — as the first (hence first
successful) provider, the resolver returns a result whose `source` is
`"Jupiter"`, not the provider's label `"Jupiter API"`: the claimed
source-equals-label conclusion fails on the real configuration. -/
theorem resolver_source_label_cex :
    (resolveTokenInfo tAddr
        [(jupiterProvider tAddr,
          FetchOutcome.response 200 jupiterSample)]).1.source = "Jupiter" ∧
      (jupiterProvider tAddr).label = "Jupiter API" ∧
      (resolveTokenInfo tAddr
          [(jupiterProvider tAddr,
            FetchOutcome.response 200 jupiterSample)]).1.source ≠
        (jupiterProvider tAddr).label := by
  refine ⟨by decide, by decide, by decide⟩

/-- C7 (amended).  The multi-source resolver short-circuits: whenever every
provider before position `i` fails (transport error, non-200 status, or a
parse with `success=False`) and provider `i` answers 200 with a successfully
parsed result, the resolver returns exactly that parsed result — whose
`source` field is the source tag attached by provider `i`'s parser, which
may differ from the provider's list label (the Jupiter providers are
labelled "Jupiter API"/"Jupiter Price API" but their parsers tag results
"Jupiter") — and invokes exactly the first `i+1` providers, so no provider
after `i` is fetched. -/
theorem resolver_short_circuit {α : Type} (addr : String)
    (pre post : List (Provider α × FetchOutcome α)) (p : Provider α) (d : α)
    (hpre : ∀ pe ∈ pre, providerFails pe = true)
    (hs : (p.parse d).success = true) :
    resolveTokenInfo addr (pre ++ (p, FetchOutcome.response 200 d) :: post) =
        (p.parse d, pre.length + 1) ∧
      (resolveTokenInfo addr
          (pre ++ (p, FetchOutcome.response 200 d) :: post)).1.source =
        (p.parse d).source := by
  have key : resolveTokenInfo addr
      (pre ++ (p, FetchOutcome.response 200 d) :: post) =
      (p.parse d, pre.length + 1) := by
    induction pre with
    | nil =>
      simp only [List.nil_append, resolveTokenInfo]
      rw [if_pos (by simp), if_pos hs]
      simp
    | cons qe rest ih =>
      have hq := hpre qe (List.mem_cons_self qe rest)
      have hrest : ∀ pe ∈ rest, providerFails pe = true := fun pe hpe =>
        hpre pe (List.mem_cons_of_mem qe hpe)
      obtain ⟨q, o⟩ := qe
      cases o with
      | transportError =>
        simp only [List.cons_append, resolveTokenInfo, List.append_eq]
        rw [ih hrest]
        simp [List.length_cons]
      | response status d2 =>
        simp only [providerFails] at hq
        simp only [List.cons_append, resolveTokenInfo, List.append_eq]
        by_cases h200 : status == 200
        · have hfail : (q.parse d2).success = false := by
            rw [h200] at hq
            simpa using hq
          rw [if_pos h200, hfail]
          simp only [Bool.false_eq_true, if_false]
          rw [ih hrest]
          simp [List.length_cons]
        · rw [if_neg h200]
          rw [ih hrest]
          simp [List.length_cons]
  exact ⟨key, by rw [key]⟩

/-- Witness fixtures for the resolver theorems: two failing providers and one
succeeding provider over a unit payload. -/
def wSuccessInfo : TokenInfo :=
  { name := "Sample", symbol := "SMP", decimals := 9, supply := "1000"
    success := true, fallback := false, source := "Solscan" }

/-- A provider whose parser reports failure (`success=False`). -/
def wFailProvider : Provider Unit :=
  { label := "DexScreener", parse := fun _ => createFallbackTokenInfo "x" }

/-- A provider whose parser succeeds with a `Solscan`-labelled result. -/
def wOkProvider : Provider Unit :=
  { label := "Solscan", parse := fun _ => wSuccessInfo }

/-- Witness for C7 (amended): with one failing provider ahead and one
provider behind, the resolver returns the successful parse — carrying the
parser's own source tag — and invokes exactly two providers. -/
theorem resolver_short_circuit_witness :
    resolveTokenInfo "addr"
        ([(wFailProvider, FetchOutcome.response 200 ())] ++
          (wOkProvider, FetchOutcome.response 200 ()) ::
            [(wFailProvider, FetchOutcome.transportError)]) =
        (wSuccessInfo, 2) ∧
      (resolveTokenInfo "addr"
          ([(wFailProvider, FetchOutcome.response 200 ())] ++
            (wOkProvider, FetchOutcome.response 200 ()) ::
              [(wFailProvider, FetchOutcome.transportError)])).1.source =
        (wOkProvider.parse ()).source :=
  resolver_short_circuit "addr"
    [(wFailProvider, FetchOutcome.response 200 ())]
    [(wFailProvider, FetchOutcome.transportError)]
    wOkProvider () (by decide) (by decide)

/-- C8.  If every provider fails, the resolver returns — it never raises, as
it is a total function — the fallback object: `success=false`,
`fallback=true`, with display name derived deterministically from the fixed
8-character identifier slice (so equal inputs always produce the equal
fallback name), after invoking every provider once. -/
theorem resolver_all_fail_fallback {α : Type} (addr : String)
    (ps : List (Provider α × FetchOutcome α))
    (h : ∀ pe ∈ ps, providerFails pe = true) :
    resolveTokenInfo addr ps = (createFallbackTokenInfo addr, ps.length) ∧
      (resolveTokenInfo addr ps).1.success = false ∧
      (resolveTokenInfo addr ps).1.fallback = true ∧
      (resolveTokenInfo addr ps).1.name = "Token " ++ pyTake 8 addr ++ "..." := by
  have key : resolveTokenInfo addr ps = (createFallbackTokenInfo addr, ps.length) := by
    induction ps with
    | nil => rfl
    | cons qe rest ih =>
      have hq := h qe (List.mem_cons_self qe rest)
      have hrest : ∀ pe ∈ rest, providerFails pe = true := fun pe hpe =>
        h pe (List.mem_cons_of_mem qe hpe)
      obtain ⟨q, o⟩ := qe
      cases o with
      | transportError =>
        simp only [resolveTokenInfo]
        rw [ih hrest]
        simp [List.length_cons]
      | response status d2 =>
        simp only [providerFails] at hq
        simp only [resolveTokenInfo]
        by_cases h200 : status == 200
        · have hfail : (q.parse d2).success = false := by
            rw [h200] at hq
            simpa using hq
          rw [if_pos h200, hfail]
          simp only [Bool.false_eq_true, if_false]
          rw [ih hrest]
          simp [List.length_cons]
        · rw [if_neg h200]
          rw [ih hrest]
          simp [List.length_cons]
  refine ⟨key, ?_, ?_, ?_⟩ <;> rw [key] <;> rfl

/-- Witness for C8: both providers fail, the resolver yields the
deterministic fallback built from `tAddr[:8]`. -/
theorem resolver_all_fail_fallback_witness :
    resolveTokenInfo tAddr
        [(wFailProvider, FetchOutcome.transportError),
         (wFailProvider, FetchOutcome.response 404 ()),
         (wFailProvider, FetchOutcome.response 200 ())] =
        (createFallbackTokenInfo tAddr, 3) ∧
      (resolveTokenInfo tAddr
          [(wFailProvider, FetchOutcome.transportError),
           (wFailProvider, FetchOutcome.response 404 ()),
           (wFailProvider, FetchOutcome.response 200 ())]).1.success = false ∧
      (resolveTokenInfo tAddr
          [(wFailProvider, FetchOutcome.transportError),
           (wFailProvider, FetchOutcome.response 404 ()),
           (wFailProvider, FetchOutcome.response 200 ())]).1.fallback = true ∧
      (resolveTokenInfo tAddr
          [(wFailProvider, FetchOutcome.transportError),
           (wFailProvider, FetchOutcome.response 404 ()),
           (wFailProvider, FetchOutcome.response 200 ())]).1.name =
        "Token " ++ pyTake 8 tAddr ++ "..." :=
  resolver_all_fail_fallback tAddr
    [(wFailProvider, FetchOutcome.transportError),
     (wFailProvider, FetchOutcome.response 404 ()),
     (wFailProvider, FetchOutcome.response 200 ())] (by decide)

/-- C6.  In the total-failure scenario — metadata is the fallback object,
market data is the all-Unknown fallback (liquidity and volume unparsable),
and the engagement summary has zero verified mentions and zero notable
accounts — the scorer produces the complete STRONG-AVOID recommendation:
total score 0, risk "Extremely High", and the reasons include the
no-verified-mentions and unknown-liquidity lines. -/
theorem total_failure_recommendation (addr : String)
    (social : EngagementSummary)
    (h1 : social.authentic_mentions = 0)
    (h2 : social.notable_accounts = []) :
    generateRecommendation (createFallbackTokenInfo addr)
        createFallbackPriceData social =
      { recommendation := "⛔ STRONG AVOID - No Confidence"
        score := 0
        risk_level := "Extremely High"
        reasons := ["❌ No verified social media mentions found",
                    "❌ No notable accounts discussing",
                    "❌ Unknown liquidity data",
                    "❌ Unknown volume data"]
        analysis_quality := "High - Based on verified data"
        confidence := "Low" } ∧
      "❌ No verified social media mentions found" ∈
        (generateRecommendation (createFallbackTokenInfo addr)
          createFallbackPriceData social).reasons ∧
      "❌ Unknown liquidity data" ∈
        (generateRecommendation (createFallbackTokenInfo addr)
          createFallbackPriceData social).reasons := by
  have hm : marketAnalysis createFallbackPriceData =
      (0, ["❌ Unknown liquidity data", "❌ Unknown volume data"]) := by decide
  have key : generateRecommendation (createFallbackTokenInfo addr)
      createFallbackPriceData social =
      { recommendation := "⛔ STRONG AVOID - No Confidence"
        score := 0
        risk_level := "Extremely High"
        reasons := ["❌ No verified social media mentions found",
                    "❌ No notable accounts discussing",
                    "❌ Unknown liquidity data",
                    "❌ Unknown volume data"]
        analysis_quality := "High - Based on verified data"
        confidence := "Low" } := by
    unfold generateRecommendation
    rw [hm, h1, h2]
    norm_num
  exact ⟨key, by rw [key]; simp, by rw [key]; simp⟩

/-- Witness for C6: instantiated at the empty engagement summary produced by
the aggregator on no verified mentions. -/
theorem total_failure_recommendation_witness :
    generateRecommendation (createFallbackTokenInfo tAddr)
        createFallbackPriceData (analyzeVerifiedSocialEngagement []) =
      { recommendation := "⛔ STRONG AVOID - No Confidence"
        score := 0
        risk_level := "Extremely High"
        reasons := ["❌ No verified social media mentions found",
                    "❌ No notable accounts discussing",
                    "❌ Unknown liquidity data",
                    "❌ Unknown volume data"]
        analysis_quality := "High - Based on verified data"
        confidence := "Low" } ∧
      "❌ No verified social media mentions found" ∈
        (generateRecommendation (createFallbackTokenInfo tAddr)
          createFallbackPriceData (analyzeVerifiedSocialEngagement [])).reasons ∧
      "❌ Unknown liquidity data" ∈
        (generateRecommendation (createFallbackTokenInfo tAddr)
          createFallbackPriceData (analyzeVerifiedSocialEngagement [])).reasons :=
  total_failure_recommendation tAddr (analyzeVerifiedSocialEngagement [])
    rfl rfl

theorem rawEngagementScore_num (vs : List VerifiedMention) :
    rawEngagementScore vs * 10 =
      ((min (min (vs.length * 15) 60 * 10 +
          min (totalLikes vs + totalRetweets vs * 2) 300 +
          (notableAccountsOf vs).eraseDups.length * 100) 1000 : ℕ) : ℚ) := by
  unfold rawEngagementScore
  push_cast [Nat.cast_min]
  rw [min_mul_of_nonneg _ _ (by norm_num : (0:ℚ) ≤ 10)]
  rw [add_mul, add_mul]
  rw [min_mul_of_nonneg _ _ (by norm_num : (0:ℚ) ≤ 10)]
  rw [min_mul_of_nonneg _ _ (by norm_num : (0:ℚ) ≤ 10)]
  rw [div_mul_cancel₀ _ (by norm_num : (10:ℚ) ≠ 0)]
  ring_nf

theorem roundTo1_rawEngagementScore (vs : List VerifiedMention) :
    roundTo1 (rawEngagementScore vs) = rawEngagementScore vs := by
  have h := rawEngagementScore_num vs
  unfold roundTo1
  rw [h, round_natCast, Int.cast_natCast]
  rw [div_eq_iff (by norm_num : (10:ℚ) ≠ 0)]
  exact h.symm

theorem rawEngagementScore_nonneg (vs : List VerifiedMention) :
    0 ≤ rawEngagementScore vs := by
  unfold rawEngagementScore
  refine le_min ?_ (by norm_num)
  have h1 : (0:ℚ) ≤ min ((vs.length * 15 : ℕ) : ℚ) 60 :=
    le_min (by positivity) (by norm_num)
  have h2 : (0:ℚ) ≤ min ((totalLikes vs + totalRetweets vs * 2 : ℚ) / 10) 30 :=
    le_min (by positivity) (by norm_num)
  have h3 : (0:ℚ) ≤ ((notableAccountsOf vs).eraseDups.length : ℚ) * 10 := by
    positivity
  linarith

theorem rawEngagementScore_le_100 (vs : List VerifiedMention) :
    rawEngagementScore vs ≤ 100 := by
  unfold rawEngagementScore
  exact min_le_right _ _

/-- C5.  The engagement aggregator returns the zero-summary on the empty
verified-mention list (score 0, level "None", risk
"Very High - No Social Media Presence"), and on every non-empty list the
returned `engagement_score` equals the sum of `min(count*15, 60)`,
`min((total_likes + 2*total_reposts)/10, 30)` and 10 per distinct notable
account, capped at 100 — hence lies in [0, 100]. -/
theorem engagement_aggregator_props (vs : List VerifiedMention) :
    analyzeVerifiedSocialEngagement [] =
      { engagement_score := 0, notable_accounts := [], total_mentions := 0,
        engagement_level := "None",
        risk_assessment := "Very High - No Social Media Presence",
        authentic_mentions := 0, total_engagement := none,
        analysis_quality := "No verified data available" } ∧
    (vs ≠ [] →
      (analyzeVerifiedSocialEngagement vs).engagement_score =
        min (min ((vs.length * 15 : ℕ) : ℚ) 60 +
          min ((totalLikes vs + 2 * totalRetweets vs : ℚ) / 10) 30 +
          10 * ((notableAccountsOf vs).eraseDups.length : ℚ)) 100 ∧
      0 ≤ (analyzeVerifiedSocialEngagement vs).engagement_score ∧
      (analyzeVerifiedSocialEngagement vs).engagement_score ≤ 100) := by
  refine ⟨rfl, fun hne => ?_⟩
  have hscore : (analyzeVerifiedSocialEngagement vs).engagement_score =
      rawEngagementScore vs := by
    unfold analyzeVerifiedSocialEngagement
    rw [if_neg (by simpa [List.isEmpty_iff] using hne)]
    exact roundTo1_rawEngagementScore vs
  refine ⟨?_, ?_, ?_⟩
  · rw [hscore]
    unfold rawEngagementScore
    ring_nf
  · rw [hscore]; exact rawEngagementScore_nonneg vs
  · rw [hscore]; exact rawEngagementScore_le_100 vs

/-- Witness for C5: the aggregator on the singleton all-signals mention
satisfies the stated formula and bounds. -/
theorem engagement_aggregator_props_witness :
    (analyzeVerifiedSocialEngagement [⟨cAll, 130⟩]).engagement_score =
        min (min (([⟨cAll, 130⟩] : List VerifiedMention).length * 15 : ℕ) 60 +
          min ((totalLikes [⟨cAll, 130⟩] + 2 * totalRetweets [⟨cAll, 130⟩] : ℚ) / 10) 30 +
          10 * ((notableAccountsOf [⟨cAll, 130⟩]).eraseDups.length : ℚ)) 100 ∧
      0 ≤ (analyzeVerifiedSocialEngagement [⟨cAll, 130⟩]).engagement_score ∧
      (analyzeVerifiedSocialEngagement [⟨cAll, 130⟩]).engagement_score ≤ 100 :=
  (engagement_aggregator_props [⟨cAll, 130⟩]).2 (by simp)

theorem dedupAux_mem_spec (rs : List SearchResult) :
    ∀ (seen : List String), ∀ r ∈ dedupAux seen rs,
      r.url.data.isEmpty = false ∧ seen.contains r.url = false ∧
        rs.find? (fun x => x.url == r.url) = some r := by
  induction rs with
  | nil =>
    intro seen r hr
    simp [dedupAux] at hr
  | cons x rest ih =>
    intro seen r hr
    unfold dedupAux at hr
    by_cases hc : (!x.url.data.isEmpty && !seen.contains x.url) = true
    · rw [if_pos hc] at hr
      obtain ⟨ha, hb⟩ := Bool.and_eq_true_iff.mp hc
      rcases List.mem_cons.mp hr with heq | htail
      · subst heq
        refine ⟨by simpa using ha, by simpa using hb, ?_⟩
        rw [List.find?_cons_of_pos _ (by simp)]
      · obtain ⟨h1, h2, h3⟩ := ih (x.url :: seen) r htail
        rw [List.contains_cons, Bool.or_eq_false_iff] at h2
        have hne : r.url ≠ x.url := by simpa using h2.1
        refine ⟨h1, h2.2, ?_⟩
        rw [List.find?_cons_of_neg _ (by simp; exact fun hEq => hne hEq.symm), h3]
    · rw [if_neg hc] at hr
      obtain ⟨h1, h2, h3⟩ := ih seen r hr
      have hne : x.url ≠ r.url := by
        rcases Bool.and_eq_false_iff.mp (Bool.of_not_eq_true hc) with hu | hs2
        · intro hEq
          rw [hEq] at hu
          simp at hu
          simp [hu] at h1
        · intro hEq
          rw [hEq] at hs2
          simp at hs2
          simp [hs2] at h2
      refine ⟨h1, h2, ?_⟩
      rw [List.find?_cons_of_neg _ (by simp [hne]), h3]

theorem dedupAux_pairwise (rs : List SearchResult) :
    ∀ seen, (dedupAux seen rs).Pairwise (fun a b => a.url ≠ b.url) := by
  induction rs with
  | nil => intro seen; simp [dedupAux]
  | cons x rest ih =>
    intro seen
    unfold dedupAux
    by_cases hc : (!x.url.data.isEmpty && !seen.contains x.url) = true
    · rw [if_pos hc]
      refine List.pairwise_cons.mpr ⟨?_, ih (x.url :: seen)⟩
      intro r hr
      have h2 := (dedupAux_mem_spec rest (x.url :: seen) r hr).2.1
      rw [List.contains_cons, Bool.or_eq_false_iff] at h2
      have : r.url ≠ x.url := by simpa using h2.1
      exact fun h => this h.symm
    · rw [if_neg hc]
      exact ih seen

theorem dedupAux_sublist (rs : List SearchResult) :
    ∀ seen, (dedupAux seen rs).Sublist rs := by
  induction rs with
  | nil => intro seen; simp [dedupAux]
  | cons x rest ih =>
    intro seen
    unfold dedupAux
    by_cases hc : (!x.url.data.isEmpty && !seen.contains x.url) = true
    · rw [if_pos hc]
      exact (ih (x.url :: seen)).cons₂ x
    · rw [if_neg hc]
      exact (ih seen).cons x

theorem countP_url_le_one (u : String) (l : List SearchResult)
    (h : l.Pairwise (fun a b => a.url ≠ b.url)) :
    l.countP (fun r => r.url == u) ≤ 1 := by
  induction l with
  | nil => simp
  | cons x t ih =>
    obtain ⟨hx, ht⟩ := List.pairwise_cons.mp h
    rw [List.countP_cons]
    by_cases hxu : (x.url == u) = true
    · have hu : x.url = u := by simpa using hxu
      have hz : t.countP (fun r => r.url == u) = 0 := by
        rw [List.countP_eq_zero]
        intro r hr
        have hne := hx r hr
        rw [hu] at hne
        simp only [beq_iff_eq]
        exact fun hEq => hne hEq.symm
      rw [hz]
      simp [hxu]
    · have hf : (x.url == u) = false := by simpa using hxu
      simp only [hf, Bool.false_eq_true, if_false, Nat.add_zero]
      exact ih ht

theorem insertByScoreDesc_perm (score : SearchResult → Nat) (r : SearchResult)
    (l : List SearchResult) : (insertByScoreDesc score r l).Perm (r :: l) := by
  induction l with
  | nil => exact List.Perm.refl _
  | cons x xs ih =>
    unfold insertByScoreDesc
    by_cases h : score r < score x
    · rw [if_pos h]
      exact (ih.cons x).trans (List.Perm.swap r x xs)
    · rw [if_neg h]

theorem sortByScoreDesc_perm (score : SearchResult → Nat)
    (l : List SearchResult) : (sortByScoreDesc score l).Perm l := by
  induction l with
  | nil => exact List.Perm.refl _
  | cons x xs ih =>
    unfold sortByScoreDesc
    exact (insertByScoreDesc_perm score x (sortByScoreDesc score xs)).trans
      (ih.cons x)

theorem insertByScoreDesc_pairwise (score : SearchResult → Nat)
    (r : SearchResult) (l : List SearchResult)
    (h : l.Pairwise (fun a b => score b ≤ score a)) :
    (insertByScoreDesc score r l).Pairwise (fun a b => score b ≤ score a) := by
  induction l with
  | nil => simp [insertByScoreDesc]
  | cons x xs ih =>
    obtain ⟨hx, hxs⟩ := List.pairwise_cons.mp h
    unfold insertByScoreDesc
    by_cases hlt : score r < score x
    · rw [if_pos hlt]
      refine List.pairwise_cons.mpr ⟨?_, ih hxs⟩
      intro y hy
      rcases List.mem_cons.mp
          ((insertByScoreDesc_perm score r xs).mem_iff.mp hy) with h1 | h2
      · subst h1; exact Nat.le_of_lt hlt
      · exact hx y h2
    · rw [if_neg hlt]
      have hge : score x ≤ score r := Nat.le_of_not_lt hlt
      refine List.pairwise_cons.mpr ⟨?_, h⟩
      intro y hy
      rcases List.mem_cons.mp hy with h1 | h2
      · subst h1; exact hge
      · exact Nat.le_trans (hx y h2) hge

theorem sortByScoreDesc_pairwise (score : SearchResult → Nat)
    (l : List SearchResult) :
    (sortByScoreDesc score l).Pairwise (fun a b => score b ≤ score a) := by
  induction l with
  | nil => simp [sortByScoreDesc]
  | cons x xs ih =>
    unfold sortByScoreDesc
    exact insertByScoreDesc_pairwise score x (sortByScoreDesc score xs) ih

/-- Duplicate-URL fixtures for the deduplication claim. -/
def rDupA : SearchResult :=
  { title := "first post", text := "pump", url := "https://x.com/a" }

/-- A later candidate sharing `rDupA`'s URL. -/
def rDupB : SearchResult :=
  { title := "second post", text := "moon pump", url := "https://x.com/a" }

/-- C3.  Deduplication by URL is a stable pass run before scoring: for every
candidate list, every URL occurs at most once in the verified output, any
output entry with URL `u` is exactly the first input entry carrying `u`, and
the deduplicated list is a sublist of the input (first-occurrence order). -/
theorem search_dedup_first_url (addr sym nm : String)
    (rs : List SearchResult) (u : String) :
    (searchPipeline addr sym nm rs).countP (fun r => r.url == u) ≤ 1 ∧
      (∀ r ∈ searchPipeline addr sym nm rs, r.url = u →
        rs.find? (fun x => x.url == u) = some r) ∧
      (dedupByUrl rs).Sublist rs := by
  have hsortp := sortByScoreDesc_perm (calcRelevance addr sym nm) (dedupByUrl rs)
  have hsub1 : ((sortByScoreDesc (calcRelevance addr sym nm)
      (dedupByUrl rs)).filter
        (fun r => 0 < calcRelevance addr sym nm r)).Sublist
      (sortByScoreDesc (calcRelevance addr sym nm) (dedupByUrl rs)) :=
    List.filter_sublist _
  have hsub2 : (searchPipeline addr sym nm rs).Sublist
      ((sortByScoreDesc (calcRelevance addr sym nm) (dedupByUrl rs)).filter
        (fun r => 0 < calcRelevance addr sym nm r)) :=
    List.take_sublist _ _
  refine ⟨?_, ?_, dedupAux_sublist rs []⟩
  · calc (searchPipeline addr sym nm rs).countP (fun r => r.url == u)
        ≤ ((sortByScoreDesc (calcRelevance addr sym nm)
            (dedupByUrl rs)).filter
              (fun r => 0 < calcRelevance addr sym nm r)).countP
            (fun r => r.url == u) := hsub2.countP_le _
      _ ≤ (sortByScoreDesc (calcRelevance addr sym nm)
            (dedupByUrl rs)).countP (fun r => r.url == u) := hsub1.countP_le _
      _ = (dedupByUrl rs).countP (fun r => r.url == u) := hsortp.countP_eq _
      _ ≤ 1 := countP_url_le_one u (dedupByUrl rs) (dedupAux_pairwise rs [])
  · intro r hr hru
    have hmem : r ∈ dedupByUrl rs :=
      hsortp.mem_iff.mp (hsub1.mem (hsub2.mem hr))
    have := (dedupAux_mem_spec rs [] r hmem).2.2
    rw [hru] at this
    exact this

/-- Witness for C3: with two candidates sharing a URL, the pipeline keeps at
most one entry with that URL and it is the first-encountered candidate. -/
theorem search_dedup_first_url_witness :
    (searchPipeline tAddr "" "" [rDupA, rDupB]).countP
        (fun r => r.url == "https://x.com/a") ≤ 1 ∧
      [rDupA, rDupB].find? (fun x => x.url == "https://x.com/a") = some rDupA ∧
      (dedupByUrl [rDupA, rDupB]).Sublist [rDupA, rDupB] :=
  ⟨(search_dedup_first_url tAddr "" "" [rDupA, rDupB] "https://x.com/a").1,
   (search_dedup_first_url tAddr "" "" [rDupA, rDupB] "https://x.com/a").2.1
     rDupA (by decide) (by decide),
   (search_dedup_first_url tAddr "" "" [rDupA, rDupB] "https://x.com/a").2.2⟩

theorem foldl_add_const (f : String → Bool) (w : ℕ) (ks : List String) :
    ∀ acc : ℕ, ks.foldl (fun a k => if f k then a + w else a) acc =
      acc + w * (ks.filter f).length := by
  induction ks with
  | nil => intro acc; simp
  | cons k t ih =>
    intro acc
    rw [List.foldl_cons, List.filter_cons]
    by_cases h : f k
    · rw [if_pos h, ih, if_pos h, List.length_cons]
      ring
    · rw [if_neg h, ih, if_neg h]

theorem foldl_add_shift (f : ℕ → ℕ) (ls : List ℕ) :
    ∀ a b : ℕ, ls.foldl (fun x l => x + f l) (a + b) =
      a + ls.foldl (fun x l => x + f l) b := by
  induction ls with
  | nil => intro a b; simp
  | cons l t ih =>
    intro a b
    rw [List.foldl_cons, List.foldl_cons, Nat.add_assoc]
    exact ih a (b + f l)

theorem foldl_ite_filter (f : ℕ → ℕ) (p : ℕ → Bool) (ls : List ℕ) :
    ∀ acc : ℕ, ls.foldl (fun a l => if p l then a + f l else a) acc =
      acc + (ls.filter p).foldl (fun a l => a + f l) 0 := by
  induction ls with
  | nil => intro acc; simp
  | cons l t ih =>
    intro acc
    rw [List.foldl_cons, List.filter_cons]
    by_cases h : p l
    · rw [if_pos h, ih, if_pos h, List.foldl_cons]
      have : (0 : ℕ) + f l = f l + 0 := by ring
      rw [this, foldl_add_shift]
      ring
    · rw [if_neg h, ih, if_neg h]

theorem calcRelevance_eq_claimRankScore2 (addr sym nm : String)
    (r : SearchResult) :
    calcRelevance addr sym nm r = claimRankScore2 addr sym nm r := by
  unfold calcRelevance claimRankScore2
  rw [foldl_add_const, foldl_ite_filter]
  split_ifs <;>
    (try simp_all only [Bool.false_eq_true, if_true, if_false]) <;> try ring

/-- C4 counterexample.  On a candidate whose only signal is the single
generic crypto keyword `pump`, the ranking function of the reference scores
2, not the 1 point per keyword the claim states: the keyword weight is two
points, not one. -/
theorem rank_keyword_weight_cex :
    calcRelevance tAddr "" "" rKeywordOnly = 2 ∧
      claimRankScore tAddr "" "" rKeywordOnly = 1 := by
  constructor
  · decide
  · decide

/-- C4 (amended).  The ranking relevance function assigns +100 for an exact
full-identifier match in the case-folded title+body, a length-decaying bonus
for each matching identifier prefix (50/30/20 for lengths 12/8/6), +20 for a
symbol match, +15 for a name match, and exactly TWO points per generic
crypto keyword present (the reference weight; the claim said one); the
caller sorts candidates by this score descending and keeps only
strictly-positive-scored candidates. -/
theorem rank_score_sorted_positive (addr sym nm : String)
    (rs : List SearchResult) :
    (∀ r : SearchResult,
        calcRelevance addr sym nm r = claimRankScore2 addr sym nm r) ∧
      (searchPipeline addr sym nm rs).Pairwise
        (fun a b => calcRelevance addr sym nm b ≤ calcRelevance addr sym nm a) ∧
      ∀ x ∈ searchPipeline addr sym nm rs, 0 < calcRelevance addr sym nm x := by
  refine ⟨fun r => calcRelevance_eq_claimRankScore2 addr sym nm r, ?_, ?_⟩
  · have hp := sortByScoreDesc_pairwise (calcRelevance addr sym nm)
      (dedupByUrl rs)
    have hsub : (searchPipeline addr sym nm rs).Sublist
        (sortByScoreDesc (calcRelevance addr sym nm) (dedupByUrl rs)) :=
      (List.take_sublist _ _).trans (List.filter_sublist _)
    exact hp.sublist hsub
  · intro x hx
    have hxf : x ∈ (sortByScoreDesc (calcRelevance addr sym nm)
        (dedupByUrl rs)).filter (fun r => 0 < calcRelevance addr sym nm r) :=
      (List.take_sublist _ _).mem hx
    have := (List.mem_filter.mp hxf).2
    simpa using this

/-- Witness for C4 (amended): the keyword-only candidate scores equally under
both formulations and survives the strictly-positive filter. -/
theorem rank_score_sorted_positive_witness :
    calcRelevance tAddr "" "" rKeywordOnly =
        claimRankScore2 tAddr "" "" rKeywordOnly ∧
      0 < calcRelevance tAddr "" "" rKeywordOnly :=
  ⟨(rank_score_sorted_positive tAddr "" "" [rKeywordOnly]).1 rKeywordOnly,
   (rank_score_sorted_positive tAddr "" "" [rKeywordOnly]).2.2 rKeywordOnly
     (by decide)⟩

end TokenScan
